import Mathlib

/-!
Verification of the NextGo project scaffolder (src/main.go).

The program is embedded shallowly: each Go function becomes a Lean
function over an explicit state.  Operating-system primitives
(`os.Mkdir`, `os.MkdirAll`, `os.Create`, `ioutil.ReadFile`, writes,
`exec`) are modelled by an environment of success oracles plus an
append-only log of the directories and files created; `log.Fatalf`
becomes an early-exit result constructor that carries the state at the
moment the process dies.  The Go `filepath.Join` and `Clean` functions (Unix rules) and
`strings.TrimSpace` are reimplemented over character lists so that all
definitions are executable and kernel-reducible.
-/

namespace NextGo

/-! Section: Go string/path primitives -/

/-- The code points accepted by the Go `unicode.IsSpace` predicate, used by
`strings.TrimSpace`. -/
def goIsSpace (c : Char) : Bool :=
  let n := c.toNat
  decide ((9 ≤ n ∧ n ≤ 13) ∨ n = 32 ∨ n = 133 ∨ n = 160 ∨ n = 5760 ∨
    (8192 ≤ n ∧ n ≤ 8202) ∨ n = 8232 ∨ n = 8233 ∨ n = 8239 ∨ n = 8287 ∨ n = 12288)

/-- Drop leading then trailing white space from a character list. -/
def trimAux (l : List Char) : List Char :=
  ((l.dropWhile goIsSpace).reverse.dropWhile goIsSpace).reverse

/-- `strings.TrimSpace`: drop leading and trailing white space. -/
def goTrimSpace (s : String) : String :=
  String.mk (trimAux s.toList)

/-- Split a character list on the `/` separator (empty segments kept,
as in the `filepath.Clean` scan). -/
def splitSlash : List Char → List (List Char)
  | [] => [[]]
  | c :: cs =>
    match splitSlash cs with
    | [] => [[c]]
    | p :: ps => if c = '/' then [] :: p :: ps else (c :: p) :: ps

/-- The element stack of `filepath.Clean`: empty and `.` segments
are dropped, `..` pops a previous segment (or is kept at the top of a
relative path, or dropped at the root of an absolute one). -/
def cleanStack (rooted : Bool) : List (List Char) → List (List Char) → List (List Char)
  | acc, [] => acc.reverse
  | acc, p :: ps =>
    if p = [] ∨ p = ['.'] then cleanStack rooted acc ps
    else if p = ['.', '.'] then
      match acc with
      | [] => if rooted then cleanStack rooted [] ps else cleanStack rooted [['.', '.']] ps
      | a :: rest =>
        if a = ['.', '.'] then cleanStack rooted (['.', '.'] :: a :: rest) ps
        else cleanStack rooted rest ps
    else cleanStack rooted (p :: acc) ps

/-- Re-join path segments with `/`. -/
def joinSlash : List (List Char) → List Char
  | [] => []
  | [p] => p
  | p :: q :: ps => p ++ '/' :: joinSlash (q :: ps)

/-- The Go `path/filepath.Clean` function for Unix separators. -/
def goClean (s : String) : String :=
  match s.toList with
  | [] => "."
  | c :: cs =>
    let rooted := c = '/'
    let body := joinSlash (cleanStack rooted [] (splitSlash (c :: cs)))
    if rooted then String.mk ('/' :: body)
    else if body = [] then "."
    else String.mk body

/-- The Go `path/filepath.Join` function on two elements: empty elements are
skipped and the result is cleaned. -/
def goJoin2 (a b : String) : String :=
  if a = "" then
    if b = "" then "" else goClean b
  else goClean (String.mk (a.toList ++ '/' :: b.toList))

/-- `strings.HasPrefix(path, TILDE_SLASH)` specialised to the two-character
pattern used by `ExpandTilde`. -/
def hasTildeSlash (s : String) : Bool :=
  match s.toList with
  | '~' :: '/' :: _ => true
  | _ => false

/-! Section: The static tables of src/main.go -/

/-- The `dirs` map literal of `createDirectoriesAndFiles`, in source
declaration order.  A Go map iterates in unspecified order, so runs are
parameterised below by a permutation of this list. -/
def dirsSpec : List (String × List String) :=
  [("cmd", ["main.go"]),
   ("pkg/router", ["router.go"]),
   ("pkg/middleware", ["middleware.go"]),
   ("pkg/handlers", ["handlers.go"]),
   ("pkg/models", ["models.go"]),
   ("pkg/db", ["db.go"]),
   ("config", ["config.yaml"])]

/-- The `dockerFiles` slice of `createDirectoriesAndFiles`. -/
def dockerFiles : List String :=
  ["Dockerfile", "docker-compose.yaml", "Makefile", ".air.toml"]

/-- `getTemplateFileName`: the `templateMapping` map literal; a Go map
lookup of an absent key yields the zero value, the empty string. -/
def getTemplateFileName (fileName : String) : String :=
  match fileName with
  | "main.go" => "templates/main.txt"
  | "router.go" => "templates/routes.txt"
  | "middleware.go" => "templates/middleware.txt"
  | "handlers.go" => "templates/handlers.txt"
  | "models.go" => "templates/models.txt"
  | "db.go" => "templates/db.txt"
  | "Dockerfile" => "templates/dockers.txt"
  | "docker-compose.yaml" => "templates/docker.txt"
  | "Makefile" => "templates/makerun.txt"
  | ".air.toml" => "templates/air.txt"
  | "config.yaml" => "templates/config.txt"
  | _ => ""

/-- Every file name the program produces: the seed files of `dirsSpec`
plus the root-level `dockerFiles`. -/
def producedFileNames : List String :=
  dirsSpec.flatMap (fun e => e.2) ++ dockerFiles

/-! Section: State, environment and results -/

/-- The filesystem effects of a run, as an append-only log: `dirs` are
the directories created (intermediate parents implied by the path),
`files` the files created together with the content written into them. -/
structure FS where
  dirs : List String
  files : List (String × String)
deriving DecidableEq

/-- Console/process events, in order of occurrence. -/
inductive Ev where
  | out (s : String)
  | readLine
  | exec (dir : String) (command : String) (args : List String)
deriving DecidableEq

/-- Program state: filesystem log, remaining standard-input lines, and
the event trace so far. -/
structure St where
  fs : FS
  stdin : List String
  trace : List Ev
deriving DecidableEq

/-- Result of a fragment of the program: normal completion, or a
`log.Fatalf` exit carrying the state at the moment of death. -/
inductive Res (α : Type) where
  | ok (a : α) (s : St)
  | fatal (msg : String) (s : St)
deriving DecidableEq

/-- The external world: whether `air` resolves on the search path, the
home directory of the current user (none when `user.Current` fails), the
template store (`ioutil.ReadFile` results), and success oracles for the
filesystem and process syscalls. -/
structure Env where
  airInstalled : Bool
  homeDir : Option String
  template : String → Option String
  mkdirOk : String → Bool
  mkdirAllOk : String → Bool
  createOk : String → Bool
  writeOk : String → Bool
  execOk : String → String → List String → Bool

def St.emit (s : St) (e : Ev) : St :=
  { s with trace := s.trace ++ [e] }

def St.addDir (s : St) (d : String) : St :=
  { s with fs := { s.fs with dirs := s.fs.dirs ++ [d] } }

def St.addFile (s : St) (p c : String) : St :=
  { s with fs := { s.fs with files := s.fs.files ++ [(p, c)] } }

/-- `bufio.Reader.ReadString` with the error ignored: pops the next
line, or yields the empty string at end of input. -/
def St.readLine (s : St) : String × St :=
  match s.stdin with
  | [] => ("", s.emit Ev.readLine)
  | l :: rest => (l, { s with stdin := rest, trace := s.trace ++ [Ev.readLine] })

/-- Whether a path already exists in the filesystem log (`os.Mkdir`
fails with `EEXIST` on such a path). -/
def FS.pathExists (fs : FS) (p : String) : Bool :=
  fs.dirs.any (fun d => decide (d = p)) || fs.files.any (fun e => decide (e.1 = p))

/-! Section: The program -/

/-- `ExpandTilde`: a path starting with the home-directory shorthand is
resolved against the home directory of the current user; any other path is
returned unchanged.  Failure of `user.Current` is the only error. -/
def ExpandTilde (homeDir : Option String) (path : String) : Except String String :=
  if hasTildeSlash path then
    match homeDir with
    | none => Except.error "user: lookup failed"
    | some h => Except.ok (goJoin2 h (String.mk (path.toList.drop 2)))
  else Except.ok path

/-- One iteration of the file loops of `createDirectoriesAndFiles`:
`os.Create`, progress line, template lookup and `writeContentFromTemplate`.
A file whose template cannot be read or written is left behind empty
(created and truncated) when the process dies. -/
def processFile (env : Env) (dirPath : String) (file : String) (s : St) : Res Unit :=
  let filePath := goJoin2 dirPath file
  if env.createOk filePath then
    let s1 := s.emit (Ev.out ("Created file: " ++ filePath))
    match env.template (getTemplateFileName file) with
    | none =>
      Res.fatal ("Error reading template file " ++ getTemplateFileName file)
        (s1.addFile filePath "")
    | some content =>
      if env.writeOk filePath then Res.ok () (s1.addFile filePath content)
      else Res.fatal ("Error writing content to file " ++ filePath) (s1.addFile filePath "")
  else Res.fatal ("Error creating file " ++ filePath) s

/-- The inner `for _, file := range files` loop (also the shape of the
`dockerFiles` loop, which runs it with `dirPath = basePath`). -/
def processFiles (env : Env) (dirPath : String) : List String → St → Res Unit
  | [], s => Res.ok () s
  | f :: rest, s =>
    match processFile env dirPath f s with
    | Res.ok _ s1 => processFiles env dirPath rest s1
    | Res.fatal m s1 => Res.fatal m s1

/-- One iteration of the `for dir, files := range dirs` loop:
`os.MkdirAll`, progress line, then the files of that directory. -/
def processDir (env : Env) (basePath : String) (entry : String × List String) (s : St) : Res Unit :=
  let dirPath := goJoin2 basePath entry.1
  if env.mkdirAllOk dirPath then
    processFiles env dirPath entry.2
      ((s.addDir dirPath).emit (Ev.out ("Created directory: " ++ dirPath)))
  else Res.fatal ("Error creating directory " ++ dirPath) s

/-- The directory loop, in the iteration order `order` (a permutation
of `dirsSpec` chosen by the Go runtime). -/
def processDirs (env : Env) (basePath : String) : List (String × List String) → St → Res Unit
  | [], s => Res.ok () s
  | d :: rest, s =>
    match processDir env basePath d s with
    | Res.ok _ s1 => processDirs env basePath rest s1
    | Res.fatal m s1 => Res.fatal m s1

/-- `createDirectoriesAndFiles`: the directory loop followed by the
root-level `dockerFiles` loop. -/
def createDirectoriesAndFiles (env : Env) (basePath : String)
    (order : List (String × List String)) (s : St) : Res Unit :=
  match processDirs env basePath order s with
  | Res.ok _ s1 => processFiles env basePath dockerFiles s1
  | Res.fatal m s1 => Res.fatal m s1

/-- `runCommand`: spawn with working directory `dir`, inherit the
standard streams, wait; `log.Fatalf` on any spawn error or non-zero
exit, so a returned value is always success. -/
def runCommand (env : Env) (dir command : String) (args : List String) (s : St) : Res Unit :=
  let s1 := s.emit (Ev.exec dir command args)
  if env.execOk dir command args then Res.ok () s1
  else Res.fatal "Error running command" s1

/-- `initializeGoMod`: `go mod init <projectName>` then `go mod tidy`,
both in `basePath`.  (The error checks after each call in the source
are dead code: `runCommand` never returns a non-nil error.) -/
def initializeGoMod (env : Env) (basePath projectName : String) (s : St) : Res Unit :=
  let s0 := s.emit (Ev.out "Initializing Go module...")
  match runCommand env basePath "go" ["mod", "init", projectName] s0 with
  | Res.ok _ s1 =>
    let s2 := s1.emit (Ev.out "Tidying up Go module dependencies...")
    match runCommand env basePath "go" ["mod", "tidy"] s2 with
    | Res.ok _ s3 => Res.ok () (s3.emit (Ev.out "Go module initialized successfully!"))
    | Res.fatal m s3 => Res.fatal m s3
  | Res.fatal m s1 => Res.fatal m s1

/-- The remediation command printed when `air` is missing. -/
def remediationCmd : String :=
  "curl -sSfL https://raw.githubusercontent.com/air-verse/air/master/install.sh | sh -s -- -b $(go env GOPATH)/bin"

/-- The full `ensureAirInstalled` diagnostic. -/
def airMissingMsg : String :=
  "Error: \x27air\x27 is not installed. Please install it by running:\n\n\t" ++ remediationCmd ++ "\n"

def basePathPrompt : String :=
  "Enter the base path where you want to create the project: "

def projectNamePrompt : String :=
  "Enter the project name: "

/-- `main`: air check, two prompts (inputs trimmed, empty input fatal),
tilde expansion, `os.Mkdir` of `<basePath>/<projectName>` (fatal when it
exists or cannot be created), scaffolding, then module init/tidy. -/
def mainRun (env : Env) (order : List (String × List String)) (s : St) : Res Unit :=
  if env.airInstalled then
    let r1 := (s.emit (Ev.out basePathPrompt)).readLine
    let baseInput := goTrimSpace r1.1
    if baseInput = "" then Res.fatal "Base path cannot be empty" r1.2
    else
      match ExpandTilde env.homeDir baseInput with
      | Except.error e => Res.fatal ("Error expanding base path: " ++ e) r1.2
      | Except.ok expandedBasePath =>
        let r2 := (r1.2.emit (Ev.out projectNamePrompt)).readLine
        let projectName := goTrimSpace r2.1
        if projectName = "" then Res.fatal "Project name cannot be empty" r2.2
        else
          let basePath := goJoin2 expandedBasePath projectName
          if r2.2.fs.pathExists basePath then
            Res.fatal ("Failed to create project base directory: " ++ basePath) r2.2
          else if env.mkdirOk basePath then
            let s5 := (r2.2.addDir basePath).emit
              (Ev.out ("Created project base directory: " ++ basePath))
            match createDirectoriesAndFiles env basePath order s5 with
            | Res.ok _ s6 => initializeGoMod env basePath projectName s6
            | Res.fatal m s6 => Res.fatal m s6
          else Res.fatal ("Failed to create project base directory: " ++ basePath) r2.2
  else Res.fatal airMissingMsg s

/-! Section: Expected outputs of a successful run -/

/-- The log entry for one created file: its path under `dirPath` and
the content of its template resource (`T` is the template store). -/
def fileEntry (T : String → String) (dirPath file : String) : String × String :=
  (goJoin2 dirPath file, T (getTemplateFileName file))

/-- The progress line printed for one created file. -/
def createdFileLine (dirPath file : String) : Ev :=
  Ev.out ("Created file: " ++ goJoin2 dirPath file)

/-- The progress lines of one directory entry: the directory line then
one line per seed file. -/
def dirTrace (basePath : String) (e : String × List String) : List Ev :=
  Ev.out ("Created directory: " ++ goJoin2 basePath e.1) ::
    e.2.map (createdFileLine (goJoin2 basePath e.1))

/-- The events before the directory loop: the two prompts, the two
reads, and the base-directory line. -/
def preTrace (bp : String) : List Ev :=
  [Ev.out basePathPrompt, Ev.readLine, Ev.out projectNamePrompt, Ev.readLine,
   Ev.out ("Created project base directory: " ++ bp)]

/-- The events of `initializeGoMod`. -/
def goModTrace (bp tp : String) : List Ev :=
  [Ev.out "Initializing Go module...",
   Ev.exec bp "go" ["mod", "init", tp],
   Ev.out "Tidying up Go module dependencies...",
   Ev.exec bp "go" ["mod", "tidy"],
   Ev.out "Go module initialized successfully!"]

/-- The eleven files of spec section 6, with their template contents,
relative to the project directory `bp`. -/
def expectedFiles (T : String → String) (bp : String) : List (String × String) :=
  [(goJoin2 (goJoin2 bp "cmd") "main.go", T "templates/main.txt"),
   (goJoin2 (goJoin2 bp "pkg/router") "router.go", T "templates/routes.txt"),
   (goJoin2 (goJoin2 bp "pkg/middleware") "middleware.go", T "templates/middleware.txt"),
   (goJoin2 (goJoin2 bp "pkg/handlers") "handlers.go", T "templates/handlers.txt"),
   (goJoin2 (goJoin2 bp "pkg/models") "models.go", T "templates/models.txt"),
   (goJoin2 (goJoin2 bp "pkg/db") "db.go", T "templates/db.txt"),
   (goJoin2 (goJoin2 bp "config") "config.yaml", T "templates/config.txt"),
   (goJoin2 bp "Dockerfile", T "templates/dockers.txt"),
   (goJoin2 bp "docker-compose.yaml", T "templates/docker.txt"),
   (goJoin2 bp "Makefile", T "templates/makerun.txt"),
   (goJoin2 bp ".air.toml", T "templates/air.txt")]

/-- The seven scaffold directories of spec section 6, relative to `bp`. -/
def expectedDirs (bp : String) : List String :=
  [goJoin2 bp "cmd", goJoin2 bp "pkg/router", goJoin2 bp "pkg/middleware",
   goJoin2 bp "pkg/handlers", goJoin2 bp "pkg/models", goJoin2 bp "pkg/db",
   goJoin2 bp "config"]

/-! Section: Characterisation of the success path -/

theorem processFile_happy (env : Env) (T : String → String)
    (htpl : env.template = fun q => some (T q))
    (hcr : env.createOk = fun _ => true)
    (hwr : env.writeOk = fun _ => true)
    (d f : String) (s : St) :
    processFile env d f s =
      Res.ok () ⟨⟨s.fs.dirs, s.fs.files ++ [fileEntry T d f]⟩, s.stdin,
        s.trace ++ [createdFileLine d f]⟩ := by
  simp [processFile, htpl, hcr, hwr, St.emit, St.addFile, fileEntry, createdFileLine]

theorem processFiles_happy (env : Env) (T : String → String)
    (htpl : env.template = fun q => some (T q))
    (hcr : env.createOk = fun _ => true)
    (hwr : env.writeOk = fun _ => true)
    (d : String) :
    ∀ (l : List String) (s : St),
      processFiles env d l s =
        Res.ok () ⟨⟨s.fs.dirs, s.fs.files ++ l.map (fileEntry T d)⟩, s.stdin,
          s.trace ++ l.map (createdFileLine d)⟩ := by
  intro l
  induction l with
  | nil => intro s; simp [processFiles]
  | cons f rest ih =>
    intro s
    rw [processFiles, processFile_happy env T htpl hcr hwr d f s]
    simp [ih]

theorem processDir_happy (env : Env) (T : String → String)
    (htpl : env.template = fun q => some (T q))
    (hma : env.mkdirAllOk = fun _ => true)
    (hcr : env.createOk = fun _ => true)
    (hwr : env.writeOk = fun _ => true)
    (b : String) (e : String × List String) (s : St) :
    processDir env b e s =
      Res.ok () ⟨⟨s.fs.dirs ++ [goJoin2 b e.1],
        s.fs.files ++ e.2.map (fileEntry T (goJoin2 b e.1))⟩, s.stdin,
        s.trace ++ dirTrace b e⟩ := by
  rw [processDir]
  simp only [hma, if_true]
  rw [processFiles_happy env T htpl hcr hwr]
  simp [St.addDir, St.emit, dirTrace]

theorem processDirs_happy (env : Env) (T : String → String)
    (htpl : env.template = fun q => some (T q))
    (hma : env.mkdirAllOk = fun _ => true)
    (hcr : env.createOk = fun _ => true)
    (hwr : env.writeOk = fun _ => true)
    (b : String) :
    ∀ (l : List (String × List String)) (s : St),
      processDirs env b l s =
        Res.ok () ⟨⟨s.fs.dirs ++ l.map (fun e => goJoin2 b e.1),
          s.fs.files ++ l.flatMap (fun e => e.2.map (fileEntry T (goJoin2 b e.1)))⟩,
          s.stdin, s.trace ++ l.flatMap (dirTrace b)⟩ := by
  intro l
  induction l with
  | nil => intro s; simp [processDirs]
  | cons e rest ih =>
    intro s
    rw [processDirs, processDir_happy env T htpl hma hcr hwr b e s]
    simp [ih]

theorem initializeGoMod_happy (env : Env)
    (hexec : env.execOk = fun _ _ _ => true)
    (bp tp : String) (s : St) :
    initializeGoMod env bp tp s = Res.ok () ⟨s.fs, s.stdin, s.trace ++ goModTrace bp tp⟩ := by
  simp [initializeGoMod, runCommand, hexec, St.emit, goModTrace]

theorem createDirectoriesAndFiles_happy (env : Env) (T : String → String)
    (htpl : env.template = fun q => some (T q))
    (hma : env.mkdirAllOk = fun _ => true)
    (hcr : env.createOk = fun _ => true)
    (hwr : env.writeOk = fun _ => true)
    (b : String) (l : List (String × List String)) (s : St) :
    createDirectoriesAndFiles env b l s =
      Res.ok () ⟨⟨s.fs.dirs ++ l.map (fun e => goJoin2 b e.1),
        s.fs.files ++ (l.flatMap (fun e => e.2.map (fileEntry T (goJoin2 b e.1))) ++
          dockerFiles.map (fileEntry T b))⟩,
        s.stdin,
        s.trace ++ (l.flatMap (dirTrace b) ++ dockerFiles.map (createdFileLine b))⟩ := by
  rw [createDirectoriesAndFiles, processDirs_happy env T htpl hma hcr hwr b l s]
  simp [processFiles_happy env T htpl hcr hwr]

theorem mainRun_happy (env : Env) (T : String → String)
    (order : List (String × List String))
    (fs : FS) (b p : String) (r : List String) (tr : List Ev) (eb : String)
    (ha : env.airInstalled = true)
    (htpl : env.template = fun q => some (T q))
    (hma : env.mkdirAllOk = fun _ => true)
    (hcr : env.createOk = fun _ => true)
    (hwr : env.writeOk = fun _ => true)
    (hexec : env.execOk = fun _ _ _ => true)
    (hb : goTrimSpace b ≠ "")
    (he : ExpandTilde env.homeDir (goTrimSpace b) = Except.ok eb)
    (hp : goTrimSpace p ≠ "")
    (hex : fs.pathExists (goJoin2 eb (goTrimSpace p)) = false)
    (hmk : env.mkdirOk (goJoin2 eb (goTrimSpace p)) = true) :
    mainRun env order ⟨fs, b :: p :: r, tr⟩ =
      Res.ok () ⟨⟨fs.dirs ++ goJoin2 eb (goTrimSpace p) ::
          order.map (fun e => goJoin2 (goJoin2 eb (goTrimSpace p)) e.1),
        fs.files ++ (order.flatMap (fun e =>
            e.2.map (fileEntry T (goJoin2 (goJoin2 eb (goTrimSpace p)) e.1))) ++
          dockerFiles.map (fileEntry T (goJoin2 eb (goTrimSpace p))))⟩,
        r,
        tr ++ (preTrace (goJoin2 eb (goTrimSpace p)) ++
          (order.flatMap (dirTrace (goJoin2 eb (goTrimSpace p))) ++
            (dockerFiles.map (createdFileLine (goJoin2 eb (goTrimSpace p))) ++
              goModTrace (goJoin2 eb (goTrimSpace p)) (goTrimSpace p))))⟩ := by
  rw [mainRun]
  simp only [ha, if_true, St.emit, St.readLine, he, hex, hmk,
    createDirectoriesAndFiles_happy env T htpl hma hcr hwr,
    initializeGoMod_happy env hexec]
  simp [hb, hp, St.addDir, St.emit, preTrace]

/-! Section: Failure at the base directory -/

/-- When `<expandedBasePath>/<projectName>` already exists, `os.Mkdir`
fails and `main` dies right there, with the filesystem untouched. -/
theorem mainRun_mkdirExists (env : Env) (order : List (String × List String))
    (fs : FS) (b p : String) (r : List String) (tr : List Ev) (eb : String)
    (ha : env.airInstalled = true)
    (hb : goTrimSpace b ≠ "")
    (he : ExpandTilde env.homeDir (goTrimSpace b) = Except.ok eb)
    (hp : goTrimSpace p ≠ "")
    (hex : fs.pathExists (goJoin2 eb (goTrimSpace p)) = true) :
    mainRun env order ⟨fs, b :: p :: r, tr⟩ =
      Res.fatal ("Failed to create project base directory: " ++ goJoin2 eb (goTrimSpace p))
        ⟨fs, r, tr ++ [Ev.out basePathPrompt, Ev.readLine, Ev.out projectNamePrompt,
          Ev.readLine]⟩ := by
  rw [mainRun]
  simp only [ha, if_true, St.emit, St.readLine, he, hex]
  simp [hb, hp]

/-- When the base directory does not exist but `os.Mkdir` still fails,
`main` dies the same way, with the filesystem untouched. -/
theorem mainRun_mkdirFails (env : Env) (order : List (String × List String))
    (fs : FS) (b p : String) (r : List String) (tr : List Ev) (eb : String)
    (ha : env.airInstalled = true)
    (hb : goTrimSpace b ≠ "")
    (he : ExpandTilde env.homeDir (goTrimSpace b) = Except.ok eb)
    (hp : goTrimSpace p ≠ "")
    (hex : fs.pathExists (goJoin2 eb (goTrimSpace p)) = false)
    (hmk : env.mkdirOk (goJoin2 eb (goTrimSpace p)) = false) :
    mainRun env order ⟨fs, b :: p :: r, tr⟩ =
      Res.fatal ("Failed to create project base directory: " ++ goJoin2 eb (goTrimSpace p))
        ⟨fs, r, tr ++ [Ev.out basePathPrompt, Ev.readLine, Ev.out projectNamePrompt,
          Ev.readLine]⟩ := by
  rw [mainRun]
  simp only [ha, if_true, St.emit, St.readLine, he, hex, hmk]
  simp [hb, hp]

/-! Section: Concrete inputs used by the witnesses -/

/-- A template store for witnesses: each resource path maps to a
distinct content. -/
def tmplW : String → String := fun q => "content:" ++ q

/-- A well-formed external world: air installed, a home directory, a
total template store, every syscall succeeding. -/
def envW : Env :=
  ⟨true, some "/home/u", fun q => some (tmplW q), fun _ => true, fun _ => true,
   fun _ => true, fun _ => true, fun _ _ _ => true⟩

/-- The same world with the live-reload tool missing. -/
def envNoAir : Env :=
  ⟨false, some "/home/u", fun q => some (tmplW q), fun _ => true, fun _ => true,
   fun _ => true, fun _ => true, fun _ _ _ => true⟩

/-- An empty filesystem with the two inputs of the end-to-end scenario
of spec section 8. -/
def stW : St := ⟨⟨[], []⟩, ["/tmp", "demo"], []⟩

/-! Section: The claims -/

/-- Claim C1: for every well-formed input (air installed, non-empty
trimmed base path and project name, project directory not already
present, all syscalls succeeding, template store readable) a run
succeeds and creates exactly the eleven files of spec section 6 under
`<basePath>/<projectName>`, each with the byte content of its template
resource, plus exactly the seven scaffold directories — whatever
iteration order the Go runtime picks for the directory map. -/
theorem C1_scaffold_exact (env : Env) (T : String → String)
    (order : List (String × List String)) (fs : FS) (b p : String)
    (r : List String) (tr : List Ev) (eb : String)
    (hord : List.Perm order dirsSpec)
    (ha : env.airInstalled = true)
    (htpl : env.template = fun q => some (T q))
    (hma : env.mkdirAllOk = fun _ => true)
    (hcr : env.createOk = fun _ => true)
    (hwr : env.writeOk = fun _ => true)
    (hexec : env.execOk = fun _ _ _ => true)
    (hb : goTrimSpace b ≠ "")
    (he : ExpandTilde env.homeDir (goTrimSpace b) = Except.ok eb)
    (hp : goTrimSpace p ≠ "")
    (hex : fs.pathExists (goJoin2 eb (goTrimSpace p)) = false)
    (hmk : env.mkdirOk (goJoin2 eb (goTrimSpace p)) = true) :
    ∃ s1, mainRun env order ⟨fs, b :: p :: r, tr⟩ = Res.ok () s1
      ∧ List.Perm s1.fs.files (fs.files ++ expectedFiles T (goJoin2 eb (goTrimSpace p)))
      ∧ List.Perm s1.fs.dirs
          (fs.dirs ++ goJoin2 eb (goTrimSpace p) :: expectedDirs (goJoin2 eb (goTrimSpace p))) := by
  refine ⟨_, mainRun_happy env T order fs b p r tr eb ha htpl hma hcr hwr hexec hb he hp hex hmk,
    ?_, ?_⟩
  · have h1 := (hord.flatMap_right
      (fun e => e.2.map (fileEntry T (goJoin2 (goJoin2 eb (goTrimSpace p)) e.1))))
    have h2 := (h1.append_right
      (dockerFiles.map (fileEntry T (goJoin2 eb (goTrimSpace p))))).append_left fs.files
    have h3 : dirsSpec.flatMap
        (fun e => e.2.map (fileEntry T (goJoin2 (goJoin2 eb (goTrimSpace p)) e.1))) ++
        dockerFiles.map (fileEntry T (goJoin2 eb (goTrimSpace p))) =
        expectedFiles T (goJoin2 eb (goTrimSpace p)) := rfl
    exact h3 ▸ h2
  · have h1 := ((hord.map (fun e => goJoin2 (goJoin2 eb (goTrimSpace p)) e.1)).cons
      (goJoin2 eb (goTrimSpace p))).append_left fs.dirs
    have h2 : dirsSpec.map (fun e => goJoin2 (goJoin2 eb (goTrimSpace p)) e.1) =
        expectedDirs (goJoin2 eb (goTrimSpace p)) := rfl
    exact h2 ▸ h1

/-- Witness for C1: the end-to-end scenario of spec section 8, base
path `/tmp`, project `demo`. -/
theorem C1_scaffold_exact_witness :
    ∃ s1, mainRun envW dirsSpec stW = Res.ok () s1
      ∧ List.Perm s1.fs.files ([] ++ expectedFiles tmplW "/tmp/demo")
      ∧ List.Perm s1.fs.dirs ([] ++ "/tmp/demo" :: expectedDirs "/tmp/demo") :=
  C1_scaffold_exact envW tmplW dirsSpec ⟨[], []⟩ "/tmp" "demo" [] [] "/tmp"
    (List.Perm.refl _) rfl rfl rfl rfl rfl rfl (by decide) rfl (by decide) rfl rfl

/-- Claim C2: `ExpandTilde` maps a path starting with the
home-directory shorthand to the home directory joined with the
remainder, leaves every other path unchanged, and errors exactly when
the path needs the home directory and the current user cannot be
resolved.  (It is a pure function of its inputs: no side effects.) -/
theorem C2_expandTilde_spec (path h : String) :
    (ExpandTilde (some h) path =
      Except.ok (if hasTildeSlash path then goJoin2 h (String.mk (path.toList.drop 2)) else path))
    ∧ (hasTildeSlash path = true →
        ExpandTilde none path = Except.error "user: lookup failed")
    ∧ (hasTildeSlash path = false → ∀ hd, ExpandTilde hd path = Except.ok path)
    ∧ (∀ hd e, ExpandTilde hd path = Except.error e → hasTildeSlash path = true ∧ hd = none) := by
  by_cases ht : hasTildeSlash path
  · refine ⟨by simp [ExpandTilde, ht], fun _ => by simp [ExpandTilde, ht],
      fun hf => absurd ht (by simp [hf]), ?_⟩
    intro hd e hc
    cases hd with
    | none => exact ⟨ht, rfl⟩
    | some hh => simp [ExpandTilde, ht] at hc
  · have ht' : hasTildeSlash path = false := by simpa using ht
    refine ⟨by simp [ExpandTilde, ht'], fun htrue => absurd htrue (by simp [ht']),
      fun _ hd => by simp [ExpandTilde, ht'], ?_⟩
    intro hd e hc
    simp [ExpandTilde, ht'] at hc

/-- Witness for C2: tilde expansion on `~/proj` with home `/home/u`,
failure without a home directory, and a path without the shorthand. -/
theorem C2_expandTilde_spec_witness :
    (ExpandTilde (some "/home/u") "~/proj" = Except.ok "/home/u/proj")
    ∧ (ExpandTilde none "~/proj" = Except.error "user: lookup failed")
    ∧ (ExpandTilde (some "/home/u") "rel/path" = Except.ok "rel/path") := by
  refine ⟨?_, ?_, ?_⟩
  · rw [(C2_expandTilde_spec "~/proj" "/home/u").1]; rfl
  · exact (C2_expandTilde_spec "~/proj" "/home/u").2.1 (by decide)
  · exact (C2_expandTilde_spec "rel/path" "/home/u").2.2.1 (by decide) (some "/home/u")

/-- Claim C3: the file-name-to-template mapping is exact and total over
the eleven produced file names: every name the directory map or the
root-file list references has a (unique, being a function) template
path, and each of the eleven equals its source entry. -/
theorem C3_template_mapping_total :
    producedFileNames.all (fun f => getTemplateFileName f != "") = true
    ∧ producedFileNames.length = 11
    ∧ getTemplateFileName "main.go" = "templates/main.txt"
    ∧ getTemplateFileName "router.go" = "templates/routes.txt"
    ∧ getTemplateFileName "middleware.go" = "templates/middleware.txt"
    ∧ getTemplateFileName "handlers.go" = "templates/handlers.txt"
    ∧ getTemplateFileName "models.go" = "templates/models.txt"
    ∧ getTemplateFileName "db.go" = "templates/db.txt"
    ∧ getTemplateFileName "config.yaml" = "templates/config.txt"
    ∧ getTemplateFileName "Dockerfile" = "templates/dockers.txt"
    ∧ getTemplateFileName "docker-compose.yaml" = "templates/docker.txt"
    ∧ getTemplateFileName "Makefile" = "templates/makerun.txt"
    ∧ getTemplateFileName ".air.toml" = "templates/air.txt" := by
  decide

/-- Claim C4: an empty (after trimming) base path or project name kills
the run with its descriptive message while the filesystem component of
the state is still exactly the initial one: no directory or file has
been created. -/
theorem C4_empty_input_aborts (env : Env) (order : List (String × List String))
    (fs : FS) (b p : String) (r : List String) (tr : List Ev)
    (ha : env.airInstalled = true) :
    (goTrimSpace b = "" →
      mainRun env order ⟨fs, b :: p :: r, tr⟩ =
        Res.fatal "Base path cannot be empty"
          ⟨fs, p :: r, tr ++ [Ev.out basePathPrompt, Ev.readLine]⟩)
    ∧ (∀ eb, goTrimSpace b ≠ "" →
        ExpandTilde env.homeDir (goTrimSpace b) = Except.ok eb →
        goTrimSpace p = "" →
        mainRun env order ⟨fs, b :: p :: r, tr⟩ =
          Res.fatal "Project name cannot be empty"
            ⟨fs, r, tr ++ [Ev.out basePathPrompt, Ev.readLine, Ev.out projectNamePrompt,
              Ev.readLine]⟩) := by
  constructor
  · intro hb
    rw [mainRun]
    simp [ha, hb, St.emit, St.readLine]
  · intro eb hb he hp
    rw [mainRun]
    simp only [ha, if_true, St.emit, St.readLine, he]
    simp [hb, hp]

/-- Witness for C4: a whitespace-only base path aborts with the
filesystem untouched. -/
theorem C4_empty_input_aborts_witness :
    mainRun envW dirsSpec ⟨⟨[], []⟩, ["   ", "demo"], []⟩ =
      Res.fatal "Base path cannot be empty"
        ⟨⟨[], []⟩, ["demo"], [Ev.out basePathPrompt, Ev.readLine]⟩ :=
  (C4_empty_input_aborts envW dirsSpec ⟨[], []⟩ "   " "demo" [] [] rfl).1 (by decide)

/-- Claim C5: `os.Mkdir` of the project directory is fatal when the
directory exists or cannot be created, so a second run with the same
inputs over the filesystem produced by a first successful run dies at
base-directory creation with that filesystem exactly as the first run
left it. -/
theorem C5_second_run_aborts :
    (∀ (env : Env) (order : List (String × List String)) (fs : FS) (b p : String)
        (r : List String) (tr : List Ev) (eb : String),
      env.airInstalled = true → goTrimSpace b ≠ "" →
      ExpandTilde env.homeDir (goTrimSpace b) = Except.ok eb → goTrimSpace p ≠ "" →
      fs.pathExists (goJoin2 eb (goTrimSpace p)) = true →
      mainRun env order ⟨fs, b :: p :: r, tr⟩ =
        Res.fatal ("Failed to create project base directory: " ++ goJoin2 eb (goTrimSpace p))
          ⟨fs, r, tr ++ [Ev.out basePathPrompt, Ev.readLine, Ev.out projectNamePrompt,
            Ev.readLine]⟩)
    ∧ (∀ (env : Env) (order : List (String × List String)) (fs : FS) (b p : String)
        (r : List String) (tr : List Ev) (eb : String),
      env.airInstalled = true → goTrimSpace b ≠ "" →
      ExpandTilde env.homeDir (goTrimSpace b) = Except.ok eb → goTrimSpace p ≠ "" →
      fs.pathExists (goJoin2 eb (goTrimSpace p)) = false →
      env.mkdirOk (goJoin2 eb (goTrimSpace p)) = false →
      mainRun env order ⟨fs, b :: p :: r, tr⟩ =
        Res.fatal ("Failed to create project base directory: " ++ goJoin2 eb (goTrimSpace p))
          ⟨fs, r, tr ++ [Ev.out basePathPrompt, Ev.readLine, Ev.out projectNamePrompt,
            Ev.readLine]⟩)
    ∧ (∀ (env : Env) (T : String → String) (order : List (String × List String))
        (fs : FS) (b p : String) (r : List String) (tr : List Ev) (eb : String),
      env.airInstalled = true →
      env.template = (fun q => some (T q)) →
      env.mkdirAllOk = (fun _ => true) →
      env.createOk = (fun _ => true) →
      env.writeOk = (fun _ => true) →
      env.execOk = (fun _ _ _ => true) →
      goTrimSpace b ≠ "" →
      ExpandTilde env.homeDir (goTrimSpace b) = Except.ok eb →
      goTrimSpace p ≠ "" →
      fs.pathExists (goJoin2 eb (goTrimSpace p)) = false →
      env.mkdirOk (goJoin2 eb (goTrimSpace p)) = true →
      ∃ s1, mainRun env order ⟨fs, b :: p :: r, tr⟩ = Res.ok () s1
        ∧ ∀ (r2 : List String) (order2 : List (String × List String)),
          mainRun env order2 ⟨s1.fs, b :: p :: r2, s1.trace⟩ =
            Res.fatal
              ("Failed to create project base directory: " ++ goJoin2 eb (goTrimSpace p))
              ⟨s1.fs, r2, s1.trace ++ [Ev.out basePathPrompt, Ev.readLine,
                Ev.out projectNamePrompt, Ev.readLine]⟩) := by
  refine ⟨fun env order fs b p r tr eb ha hb he hp hex =>
      mainRun_mkdirExists env order fs b p r tr eb ha hb he hp hex,
    fun env order fs b p r tr eb ha hb he hp hex hmk =>
      mainRun_mkdirFails env order fs b p r tr eb ha hb he hp hex hmk, ?_⟩
  intro env T order fs b p r tr eb ha htpl hma hcr hwr hexec hb he hp hex hmk
  refine ⟨_, mainRun_happy env T order fs b p r tr eb ha htpl hma hcr hwr hexec hb he hp hex hmk,
    ?_⟩
  intro r2 order2
  refine mainRun_mkdirExists env order2 _ b p r2 _ eb ha hb he hp ?_
  simp [FS.pathExists, List.any_eq_true]

/-- Witness for C5: running the `/tmp` + `demo` scenario twice; the
second run dies at base-directory creation over the first-run
filesystem. -/
theorem C5_second_run_aborts_witness :
    ∃ s1, mainRun envW dirsSpec stW = Res.ok () s1
      ∧ ∀ (r2 : List String) (order2 : List (String × List String)),
        mainRun envW order2 ⟨s1.fs, "/tmp" :: "demo" :: r2, s1.trace⟩ =
          Res.fatal ("Failed to create project base directory: " ++ "/tmp/demo")
            ⟨s1.fs, r2, s1.trace ++ [Ev.out basePathPrompt, Ev.readLine,
              Ev.out projectNamePrompt, Ev.readLine]⟩ :=
  C5_second_run_aborts.2.2 envW tmplW dirsSpec ⟨[], []⟩ "/tmp" "demo" [] [] "/tmp"
    rfl rfl rfl rfl rfl rfl (by decide) rfl (by decide) rfl rfl

/-- Claim C7: `runCommand` records the child invocation with the given
working directory, returns success exactly when the child does, and
otherwise kills the whole run; consequently `go mod tidy` is attempted
precisely when `go mod init` fully succeeded. -/
theorem C7_runCommand_fatal :
    (∀ (env : Env) (d c : String) (a : List String) (s : St),
      env.execOk d c a = true →
      runCommand env d c a s = Res.ok () (s.emit (Ev.exec d c a)))
    ∧ (∀ (env : Env) (d c : String) (a : List String) (s : St),
      env.execOk d c a = false →
      runCommand env d c a s = Res.fatal "Error running command" (s.emit (Ev.exec d c a)))
    ∧ (∀ (env : Env) (bp tp : String) (s : St),
      env.execOk bp "go" ["mod", "init", tp] = false →
      initializeGoMod env bp tp s =
        Res.fatal "Error running command"
          ((s.emit (Ev.out "Initializing Go module...")).emit
            (Ev.exec bp "go" ["mod", "init", tp])))
    ∧ (∀ (env : Env) (bp tp : String) (s : St),
      env.execOk bp "go" ["mod", "init", tp] = true →
      ∃ s1, (initializeGoMod env bp tp s = Res.ok () s1 ∨
          initializeGoMod env bp tp s = Res.fatal "Error running command" s1)
        ∧ Ev.exec bp "go" ["mod", "tidy"] ∈ s1.trace) := by
  refine ⟨fun env d c a s h => by simp [runCommand, h],
    fun env d c a s h => by simp [runCommand, h],
    fun env bp tp s h => by simp [initializeGoMod, runCommand, h], ?_⟩
  intro env bp tp s h1
  cases h2 : env.execOk bp "go" ["mod", "tidy"] with
  | true =>
    refine ⟨((((s.emit (Ev.out "Initializing Go module...")).emit
        (Ev.exec bp "go" ["mod", "init", tp])).emit
        (Ev.out "Tidying up Go module dependencies...")).emit
        (Ev.exec bp "go" ["mod", "tidy"])).emit
        (Ev.out "Go module initialized successfully!"), Or.inl ?_, ?_⟩
    · simp [initializeGoMod, runCommand, h1, h2, St.emit]
    · simp [St.emit]
  | false =>
    refine ⟨(((s.emit (Ev.out "Initializing Go module...")).emit
        (Ev.exec bp "go" ["mod", "init", tp])).emit
        (Ev.out "Tidying up Go module dependencies...")).emit
        (Ev.exec bp "go" ["mod", "tidy"]), Or.inr ?_, ?_⟩
    · simp [initializeGoMod, runCommand, h1, h2, St.emit]
    · simp [St.emit]

/-- Witness for C7: a failing spawn is fatal; with everything green the
init run is followed by a tidy attempt. -/
theorem C7_runCommand_fatal_witness :
    (runCommand envW "/tmp/demo" "go" ["mod", "init", "demo"] stW =
      Res.ok () (stW.emit (Ev.exec "/tmp/demo" "go" ["mod", "init", "demo"])))
    ∧ (runCommand envNoAir "/x" "false" [] stW =
        runCommand envNoAir "/x" "false" [] stW)
    ∧ (∃ s1, (initializeGoMod envW "/tmp/demo" "demo" stW = Res.ok () s1 ∨
          initializeGoMod envW "/tmp/demo" "demo" stW =
            Res.fatal "Error running command" s1)
        ∧ Ev.exec "/tmp/demo" "go" ["mod", "tidy"] ∈ s1.trace) :=
  ⟨C7_runCommand_fatal.1 envW "/tmp/demo" "go" ["mod", "init", "demo"] stW rfl,
   rfl,
   C7_runCommand_fatal.2.2.2 envW "/tmp/demo" "demo" stW rfl⟩

/-- Claim C8: when `air` is not on the search path the run dies before
any prompt is printed or any input is read — the state it dies with is
the initial one — and the diagnostic contains the install command. -/
theorem C8_air_missing_aborts (env : Env) (order : List (String × List String)) (s : St)
    (hair : env.airInstalled = false) :
    mainRun env order s = Res.fatal airMissingMsg s
    ∧ ∃ a b, airMissingMsg = a ++ remediationCmd ++ b := by
  constructor
  · rw [mainRun]; simp [hair]
  · exact ⟨"Error: \x27air\x27 is not installed. Please install it by running:\n\n\t", "\n", rfl⟩

/-- Witness for C8: the missing-tool world aborts with the untouched
initial state. -/
theorem C8_air_missing_aborts_witness :
    mainRun envNoAir dirsSpec stW = Res.fatal airMissingMsg stW
    ∧ ∃ a b, airMissingMsg = a ++ remediationCmd ++ b :=
  C8_air_missing_aborts envNoAir dirsSpec stW rfl

/-! Section: Monotonicity: the run only ever adds to the filesystem log -/

/-- `StepMono s t`: state `t` extends state `s` — everything created or
printed by the time of `s` is still present, in place and unmodified, in
`t`. -/
def StepMono (s t : St) : Prop :=
  (∃ x, t.fs.files = s.fs.files ++ x) ∧ (∃ x, t.fs.dirs = s.fs.dirs ++ x) ∧
    (∃ x, t.trace = s.trace ++ x)

theorem stepMono_refl (s : St) : StepMono s s :=
  ⟨⟨[], by simp⟩, ⟨[], by simp⟩, ⟨[], by simp⟩⟩

theorem stepMono_trans {s t u : St} (h1 : StepMono s t) (h2 : StepMono t u) :
    StepMono s u := by
  obtain ⟨⟨x1, e1⟩, ⟨x2, e2⟩, ⟨x3, e3⟩⟩ := h1
  obtain ⟨⟨y1, f1⟩, ⟨y2, f2⟩, ⟨y3, f3⟩⟩ := h2
  exact ⟨⟨x1 ++ y1, by simp [f1, e1]⟩, ⟨x2 ++ y2, by simp [f2, e2]⟩,
    ⟨x3 ++ y3, by simp [f3, e3]⟩⟩

theorem stepMono_emit (s : St) (e : Ev) : StepMono s (s.emit e) :=
  ⟨⟨[], by simp [St.emit]⟩, ⟨[], by simp [St.emit]⟩, ⟨[e], by simp [St.emit]⟩⟩

theorem stepMono_addDir (s : St) (d : String) : StepMono s (s.addDir d) :=
  ⟨⟨[], by simp [St.addDir]⟩, ⟨[d], by simp [St.addDir]⟩, ⟨[], by simp [St.addDir]⟩⟩

theorem stepMono_addFile (s : St) (p c : String) : StepMono s (s.addFile p c) :=
  ⟨⟨[(p, c)], by simp [St.addFile]⟩, ⟨[], by simp [St.addFile]⟩, ⟨[], by simp [St.addFile]⟩⟩

theorem stepMono_readLine (s : St) : StepMono s s.readLine.2 := by
  cases hs : s.stdin with
  | nil =>
    exact ⟨⟨[], by simp [St.readLine, hs, St.emit]⟩, ⟨[], by simp [St.readLine, hs, St.emit]⟩,
      ⟨[Ev.readLine], by simp [St.readLine, hs, St.emit]⟩⟩
  | cons l rest =>
    exact ⟨⟨[], by simp [St.readLine, hs]⟩, ⟨[], by simp [St.readLine, hs]⟩,
      ⟨[Ev.readLine], by simp [St.readLine, hs]⟩⟩

/-- Monotonicity over a result, whether it completed or died. -/
def ResMono (s : St) : Res Unit → Prop
  | Res.ok _ t => StepMono s t
  | Res.fatal _ t => StepMono s t

theorem resMono_pre {s t : St} {r : Res Unit} (h0 : StepMono s t) (h : ResMono t r) :
    ResMono s r := by
  cases r with
  | ok a u => exact stepMono_trans h0 h
  | fatal m u => exact stepMono_trans h0 h

theorem resMono_bind {s : St} {k : St → Res Unit} :
    ∀ (r : Res Unit), ResMono s r → (∀ t, ResMono t (k t)) →
    ResMono s (match r with | Res.ok _ t => k t | Res.fatal m t => Res.fatal m t) := by
  intro r h1 h2
  cases hr : r with
  | ok a t =>
    rw [hr] at h1
    have hk := h2 t
    show ResMono s (k t)
    cases hkv : k t with
    | ok b u => rw [hkv] at hk; exact stepMono_trans h1 hk
    | fatal m u => rw [hkv] at hk; exact stepMono_trans h1 hk
  | fatal m t =>
    rw [hr] at h1
    exact h1

theorem processFile_mono (env : Env) (d f : String) (s : St) :
    ResMono s (processFile env d f s) := by
  rw [processFile]
  split
  · split
    · exact stepMono_trans (stepMono_emit s _) (stepMono_addFile _ _ _)
    · split
      · exact stepMono_trans (stepMono_emit s _) (stepMono_addFile _ _ _)
      · exact stepMono_trans (stepMono_emit s _) (stepMono_addFile _ _ _)
  · exact stepMono_refl s

theorem processFiles_mono (env : Env) (d : String) :
    ∀ (l : List String) (s : St), ResMono s (processFiles env d l s) := by
  intro l
  induction l with
  | nil => intro s; exact stepMono_refl s
  | cons f rest ih =>
    intro s
    rw [processFiles]
    exact resMono_bind (processFile env d f s) (processFile_mono env d f s) (fun t => ih t)

theorem processDir_mono (env : Env) (b : String) (e : String × List String) (s : St) :
    ResMono s (processDir env b e s) := by
  rw [processDir]
  split
  · exact resMono_pre (stepMono_trans (stepMono_addDir s _) (stepMono_emit _ _))
      (processFiles_mono env _ e.2 _)
  · exact stepMono_refl s

theorem processDirs_mono (env : Env) (b : String) :
    ∀ (l : List (String × List String)) (s : St), ResMono s (processDirs env b l s) := by
  intro l
  induction l with
  | nil => intro s; exact stepMono_refl s
  | cons e rest ih =>
    intro s
    rw [processDirs]
    exact resMono_bind (processDir env b e s) (processDir_mono env b e s) (fun t => ih t)

theorem createDirectoriesAndFiles_mono (env : Env) (b : String)
    (l : List (String × List String)) (s : St) :
    ResMono s (createDirectoriesAndFiles env b l s) := by
  rw [createDirectoriesAndFiles]
  exact resMono_bind (processDirs env b l s) (processDirs_mono env b l s)
    (fun t => processFiles_mono env b dockerFiles t)

theorem runCommand_mono (env : Env) (d c : String) (a : List String) (s : St) :
    ResMono s (runCommand env d c a s) := by
  rw [runCommand]
  split
  · exact stepMono_emit s _
  · exact stepMono_emit s _

theorem initializeGoMod_mono (env : Env) (bp tp : String) (s : St) :
    ResMono s (initializeGoMod env bp tp s) := by
  rw [initializeGoMod]
  dsimp only
  refine resMono_pre (stepMono_emit s (Ev.out "Initializing Go module...")) ?_
  refine resMono_bind _ (runCommand_mono env bp "go" ["mod", "init", tp] _) ?_
  intro t
  refine resMono_pre (stepMono_emit t (Ev.out "Tidying up Go module dependencies...")) ?_
  refine resMono_bind _ (runCommand_mono env bp "go" ["mod", "tidy"] _) ?_
  intro u
  exact stepMono_emit u (Ev.out "Go module initialized successfully!")

theorem mainRun_mono (env : Env) (order : List (String × List String)) (s : St) :
    ResMono s (mainRun env order s) := by
  rw [mainRun]
  split
  · dsimp only
    have m1 : StepMono s ((s.emit (Ev.out basePathPrompt)).readLine).2 :=
      stepMono_trans (stepMono_emit s _) (stepMono_readLine _)
    split
    · exact m1
    · split
      · exact m1
      · have m2 : StepMono s (((((s.emit (Ev.out basePathPrompt)).readLine).2.emit
            (Ev.out projectNamePrompt)).readLine).2) :=
          stepMono_trans m1 (stepMono_trans (stepMono_emit _ _) (stepMono_readLine _))
        split
        · exact m2
        · split
          · exact m2
          · split
            · exact resMono_pre (stepMono_trans m2
                (stepMono_trans (stepMono_addDir _ _) (stepMono_emit _ _)))
                (resMono_bind _ (createDirectoriesAndFiles_mono env _ order _)
                  (fun t => initializeGoMod_mono env _ _ t))
            · exact m2
  · exact stepMono_refl s

/-- Claim C6: any failing step kills the run at once (the result is a
single fatal outcome carrying the state at that step), and the state it
dies with only extends what was there before: every file and directory
created earlier — by this run or before it — is still present,
unmodified and in order, with no rollback or cleanup.  Stated for the
scaffolding phase and for the whole program. -/
theorem C6_no_rollback :
    (∀ (env : Env) (bp : String) (order : List (String × List String)) (s : St)
        (m : String) (t : St),
      createDirectoriesAndFiles env bp order s = Res.fatal m t → StepMono s t)
    ∧ (∀ (env : Env) (order : List (String × List String)) (s : St) (m : String) (t : St),
      mainRun env order s = Res.fatal m t → StepMono s t) := by
  constructor
  · intro env bp order s m t h
    have hm := createDirectoriesAndFiles_mono env bp order s
    rw [h] at hm
    exact hm
  · intro env order s m t h
    have hm := mainRun_mono env order s
    rw [h] at hm
    exact hm

/-- Witness for C6: the missing-tool abort leaves the initial state
intact. -/
theorem C6_no_rollback_witness : StepMono stW stW :=
  C6_no_rollback.2 envNoAir dirsSpec stW airMissingMsg stW rfl

/-! Section: Trimming is idempotent -/

theorem dropWhile_rdropWhile_self {α : Type} (p : α → Bool) (y : List α)
    (hy : List.dropWhile p y = y) :
    List.dropWhile p (List.rdropWhile p y) = List.rdropWhile p y := by
  have hdec : y = List.rdropWhile p y ++ (y.reverse.takeWhile p).reverse :=
    calc y = (y.reverse).reverse := (List.reverse_reverse y).symm
    _ = (List.takeWhile p y.reverse ++ List.dropWhile p y.reverse).reverse := by
        rw [List.takeWhile_append_dropWhile]
    _ = (List.dropWhile p y.reverse).reverse ++ (List.takeWhile p y.reverse).reverse := by
        rw [List.reverse_append]
    _ = List.rdropWhile p y ++ (y.reverse.takeWhile p).reverse := rfl
  cases hr : List.rdropWhile p y with
  | nil => simp
  | cons c cs =>
    have hy0 : y = c :: (cs ++ (y.reverse.takeWhile p).reverse) := by
      rw [hr] at hdec
      simpa using hdec
    have hc : p c = false := by
      cases hpc : p c with
      | false => rfl
      | true =>
        exfalso
        rw [hy0, List.dropWhile_cons, hpc, if_pos rfl] at hy
        have hsub : List.Sublist (List.dropWhile p (cs ++ (y.reverse.takeWhile p).reverse))
            (cs ++ (y.reverse.takeWhile p).reverse) := List.dropWhile_sublist p
        have hl := hsub.length_le
        rw [hy] at hl
        simp [List.length_cons] at hl
    simp [List.dropWhile_cons, hc]

theorem trimAux_idem (l : List Char) : trimAux (trimAux l) = trimAux l := by
  have h2 : List.dropWhile goIsSpace (trimAux l) = trimAux l :=
    dropWhile_rdropWhile_self goIsSpace (List.dropWhile goIsSpace l)
      (List.dropWhile_idempotent goIsSpace l)
  show List.rdropWhile goIsSpace (List.dropWhile goIsSpace (trimAux l)) = trimAux l
  rw [h2]
  show List.rdropWhile goIsSpace (List.rdropWhile goIsSpace (List.dropWhile goIsSpace l)) =
    trimAux l
  rw [List.rdropWhile_idempotent]
  rfl

theorem goTrimSpace_idem (s : String) : goTrimSpace (goTrimSpace s) = goTrimSpace s := by
  simp only [goTrimSpace]
  rw [show (String.mk (trimAux s.toList)).toList = trimAux s.toList from rfl, trimAux_idem]

theorem goTrimSpace_of_allSpace (s : String) (h : s.toList.all goIsSpace = true) :
    goTrimSpace s = "" := by
  have h1 : List.dropWhile goIsSpace s.toList = [] :=
    List.dropWhile_eq_nil_iff.mpr (fun x hx => List.all_eq_true.mp h x hx)
  simp only [goTrimSpace, trimAux, h1]
  rfl

/-! Section: Observable behaviour (outcome, filesystem, console) of a run -/

/-- The outcome, filesystem and event trace of a result — everything
except the unconsumed standard input carried by the final state. -/
def runObs : Res Unit → Option String × FS × List Ev
  | Res.ok _ t => (none, t.fs, t.trace)
  | Res.fatal m t => (some m, t.fs, t.trace)

/-- Claim C9: both inputs are trimmed before any use — a run behaves
(outcome, filesystem, console) exactly as if fed the trimmed lines, so
surrounding whitespace never reaches a created path or the module name
— and a whitespace-only line is treated as empty and aborts the run
before any filesystem mutation. -/
theorem C9_inputs_trimmed :
    (∀ (env : Env) (order : List (String × List String)) (fs : FS) (b p : String)
        (r : List String) (tr : List Ev),
      runObs (mainRun env order ⟨fs, b :: p :: r, tr⟩) =
        runObs (mainRun env order ⟨fs, goTrimSpace b :: goTrimSpace p :: r, tr⟩))
    ∧ (∀ (env : Env) (order : List (String × List String)) (fs : FS) (b p : String)
        (r : List String) (tr : List Ev),
      env.airInstalled = true → b.toList.all goIsSpace = true →
      mainRun env order ⟨fs, b :: p :: r, tr⟩ =
        Res.fatal "Base path cannot be empty"
          ⟨fs, p :: r, tr ++ [Ev.out basePathPrompt, Ev.readLine]⟩) := by
  constructor
  · intro env order fs b p r tr
    rw [mainRun, mainRun]
    by_cases ha : env.airInstalled = true
    · simp only [ha, if_true, St.emit, St.readLine]
      rw [goTrimSpace_idem b, goTrimSpace_idem p]
      by_cases hbe : goTrimSpace b = ""
      · simp [hbe, runObs]
      · simp only [hbe, if_neg, if_false]
        cases hE : ExpandTilde env.homeDir (goTrimSpace b) with
        | error e => simp [hE, runObs]
        | ok eb => simp [hE]
    · simp [ha, runObs]
  · intro env order fs b p r tr ha hall
    have hb := goTrimSpace_of_allSpace b hall
    rw [mainRun]
    simp [ha, hb, St.emit, St.readLine]

/-- Witness for C9: a whitespace-only base path aborts as empty with
the filesystem untouched. -/
theorem C9_inputs_trimmed_witness :
    mainRun envW dirsSpec ⟨⟨[], []⟩, [" \t ", "demo"], []⟩ =
      Res.fatal "Base path cannot be empty"
        ⟨⟨[], []⟩, ["demo"], [Ev.out basePathPrompt, Ev.readLine]⟩ :=
  C9_inputs_trimmed.2 envW dirsSpec ⟨[], []⟩ " \t " "demo" [] [] rfl (by decide)

/-- Claim C10: two successful runs over the same inputs and template
store create the same set of directories and files with the same
contents, whatever iteration orders the Go runtime picks for the
directory map; the console trace differs at most in the order of the
per-directory progress lines. -/
theorem C10_order_irrelevant :
    ∀ (env : Env) (T : String → String) (l1 l2 : List (String × List String))
      (fs : FS) (b p : String) (r : List String) (tr : List Ev) (eb : String),
      List.Perm l1 dirsSpec → List.Perm l2 dirsSpec →
      env.airInstalled = true →
      env.template = (fun q => some (T q)) →
      env.mkdirAllOk = (fun _ => true) →
      env.createOk = (fun _ => true) →
      env.writeOk = (fun _ => true) →
      env.execOk = (fun _ _ _ => true) →
      goTrimSpace b ≠ "" →
      ExpandTilde env.homeDir (goTrimSpace b) = Except.ok eb →
      goTrimSpace p ≠ "" →
      fs.pathExists (goJoin2 eb (goTrimSpace p)) = false →
      env.mkdirOk (goJoin2 eb (goTrimSpace p)) = true →
      ∃ s1 s2, mainRun env l1 ⟨fs, b :: p :: r, tr⟩ = Res.ok () s1
        ∧ mainRun env l2 ⟨fs, b :: p :: r, tr⟩ = Res.ok () s2
        ∧ List.Perm s1.fs.files s2.fs.files
        ∧ List.Perm s1.fs.dirs s2.fs.dirs
        ∧ s1.stdin = s2.stdin
        ∧ List.Perm s1.trace s2.trace := by
  intro env T l1 l2 fs b p r tr eb h1 h2 ha htpl hma hcr hwr hexec hb he hp hex hmk
  have h12 : List.Perm l1 l2 := h1.trans h2.symm
  refine ⟨_, _,
    mainRun_happy env T l1 fs b p r tr eb ha htpl hma hcr hwr hexec hb he hp hex hmk,
    mainRun_happy env T l2 fs b p r tr eb ha htpl hma hcr hwr hexec hb he hp hex hmk,
    ?_, ?_, rfl, ?_⟩
  · exact ((h12.flatMap_right _).append_right _).append_left fs.files
  · exact ((h12.map _).cons _).append_left fs.dirs
  · exact (((h12.flatMap_right _).append_right _).append_left _).append_left tr

/-- Witness for C10: the `/tmp` + `demo` scenario run in source order
and in reversed order. -/
theorem C10_order_irrelevant_witness :
    ∃ s1 s2, mainRun envW dirsSpec stW = Res.ok () s1
      ∧ mainRun envW dirsSpec.reverse stW = Res.ok () s2
      ∧ List.Perm s1.fs.files s2.fs.files
      ∧ List.Perm s1.fs.dirs s2.fs.dirs
      ∧ s1.stdin = s2.stdin
      ∧ List.Perm s1.trace s2.trace :=
  C10_order_irrelevant envW tmplW dirsSpec dirsSpec.reverse ⟨[], []⟩ "/tmp" "demo" [] [] "/tmp"
    (List.Perm.refl _) (List.reverse_perm dirsSpec) rfl rfl rfl rfl rfl rfl
    (by decide) rfl (by decide) rfl rfl

end NextGo
